import Mathlib

/-!
# novmm/platform: KVM negotiation and CPUID tables

A shallow embedding of `src/novmm/platform/kvm.go` and
`src/novmm/platform/kvm_cpuid.go`.

Everything the Go code asks of the outside world (the `/dev/kvm` device, the
cgo helpers of `kvm_cpuid.h`, the helpers of this package that live in other
files) is a field of `Env`.  Every call to the outside world is appended, with
its answer, to a trace of `Event`s that is threaded through the functions; the
answer of a call may depend on the whole trace so far.

Loops without a bound in the source (`for { ... }`) take a `fuel` argument and
return `none` when it runs out.
-/

namespace Novm

/-! ## Machine integers and errors -/

/-- Value of Go's `syscall.Errno`, a `uintptr`. -/
abbrev Errno := Nat

/-- The constant `syscall.ENOMEM` on Linux. -/
def ENOMEM : Errno := 12

/-- Dynamic value held by a non-nil Go `error`. -/
inductive Err where
  /-- A `syscall.Errno` converted to `error`; non-nil whatever the number, 0 included. -/
  | errno (e : Errno)
  /-- Any other error value, produced by helpers outside these sources. -/
  | other (tag : Nat)
deriving DecidableEq, Repr

/-- Go's `error` interface: `none` is `nil`. -/
abbrev GoError := Option Err

/-- Go's `int(x)` of a `uintptr` on a 64-bit target (two's complement). -/
def intOfUintptr (x : Nat) : Int :=
  if x % 2 ^ 64 < 2 ^ 63 then ((x % 2 ^ 64 : Nat) : Int) else ((x % 2 ^ 64 : Nat) : Int) - 2 ^ 64

/-- The cgo conversion `C.int(i)` of a Go `int`: truncation to 32 bits, signed. -/
def C_int (i : Int) : Int :=
  (i + 2 ^ 31) % 2 ^ 32 - 2 ^ 31

/-- The conversion `syscall.Errno(e)` of a `C.int`: sign extension to `uintptr`. -/
def errnoOfCInt (e : Int) : Errno :=
  (e % 2 ^ 64).toNat

/-! ## Data model -/

/-- The struct `Cpuid` of kvm_cpuid.go; the fields are `uint32`. -/
structure Cpuid where
  Function : Nat
  EAX : Nat
  EBX : Nat
  ECX : Nat
  EDX : Nat
deriving DecidableEq, Repr

/-- Contents of a `[]byte` scratch buffer. -/
abbrev Buf := List Nat

/-- Modelled from the spec: the constant `PageSize` is declared outside the given
sources; the spec calls the scratch buffer "one memory page", 4096 bytes on x86. -/
def PageSize : Nat := 4096

/-- Modelled from the spec: the element type of `requiredCapabilities` is declared
outside the given sources; the spec's CapabilityRequirement is `{ id, minimum? }`. -/
structure CapabilityRequirement where
  id : Nat
  minimum : Option Nat
deriving DecidableEq, Repr

/-- Modelled from the spec: the struct `Vcpu` is declared outside the given sources.
The fields are the two that kvm_cpuid.go uses (`vcpu.fd`, `vcpu.cpuid`) and the
spec's `id`. -/
structure Vcpu where
  id : Int
  fd : Int
  cpuid : List Cpuid
deriving DecidableEq, Repr

/-- The struct `Vm` of kvm.go. -/
structure Vm where
  fd : Int
  next_id : Int
  mem_region : Int
  cpuid : List Cpuid
  msrs : List Nat
  mmap_size : Int
  use_eventfds : Bool
  vcpus : List Vcpu
deriving DecidableEq, Repr

/-! ## The outside world -/

/-- One call to the outside world together with its answer. -/
inductive Event where
  /-- `syscall.Open("/dev/kvm", O_RDWR|O_CLOEXEC, 0)` -/
  | sysOpen (fd : Int) (err : GoError)
  /-- `syscall.Close(fd)` -/
  | close (fd : Int)
  /-- ioctl `GetApiVersion` -/
  | getApiVersion (fd : Int) (version : Nat) (e : Errno)
  /-- `checkCapability(fd, capSpec)` -/
  | checkCapability (fd : Int) (capSpec : CapabilityRequirement) (err : GoError)
  /-- ioctl `GetVcpuMmapSize` -/
  | getVcpuMmapSize (fd : Int) (r : Nat) (e : Errno)
  /-- ioctl `GetSupportedCpuid` on a buffer, with the buffer as the kernel left it -/
  | getSupportedCpuid (fd : Int) (bufIn bufOut : Buf) (e : Errno)
  /-- `availableMsrs(fd)` -/
  | availableMsrs (fd : Int) (msrs : List Nat) (err : GoError)
  /-- ioctl `CreateVm` -/
  | createVm (fd : Int) (vmfd : Nat) (e : Errno)
  /-- `syscall.CloseOnExec(fd)` -/
  | closeOnExec (fd : Int)
  /-- `log.Print("kvm: VM created.")` -/
  | logPrint
  /-- ioctl `SetCpuid` on a vcpu descriptor -/
  | setCpuid (fd : Int) (buf : Buf) (e : Errno)
deriving DecidableEq, Repr

/-- What the code takes from outside kvm.go and kvm_cpuid.go.  Answers of the
device are functions of the trace of earlier calls. -/
structure Env where
  /-- The package variable `requiredCapabilities` (declared in another file). -/
  requiredCapabilities : List CapabilityRequirement
  /-- `C.cpuid_init(data, size)` of kvm_cpuid.h: the buffer after the call. -/
  cpuid_init : Buf → Nat → Buf
  /-- `C.cpuid_get(data, n, &function, &eax, &ebx, &ecx, &edx)`: the return value
  and the five out-parameters (which Go zero-initialises before each call). -/
  cpuid_get : Buf → Int → Int × Cpuid
  /-- `C.cpuid_set(data, size, n, function, eax, ebx, ecx, edx)`: the return value
  and the buffer after the call. -/
  cpuid_set : Buf → Int → Int → Cpuid → Int × Buf
  /-- `C.cpuid_native(function, &eax, &ebx, &ecx, &edx)`: the four out-parameters. -/
  cpuid_native : Nat → Nat × Nat × Nat × Nat
  sysOpen : List Event → Int × GoError
  getApiVersion : List Event → Int → Nat × Errno
  /-- The helper `checkCapability` (defined in another file). -/
  checkCapability : List Event → Int → CapabilityRequirement → GoError
  getVcpuMmapSize : List Event → Int → Nat × Errno
  getSupportedCpuid : List Event → Int → Buf → Buf × Errno
  /-- The helper `availableMsrs` (defined in another file). -/
  availableMsrs : List Event → Int → List Nat × GoError
  createVm : List Event → Int → Nat × Errno
  setCpuid : List Event → Int → Buf → Errno

/-! ## kvm_cpuid.go -/

/-- The retry loop of `supportedCpuid` (`for { ioctl; if ENOMEM continue;
else if e != 0 return; break }`).  Returns the errno that ended the loop,
the buffer and the trace. -/
def supportedCpuid.query (env : Env) (fd : Int) :
    Nat → Buf → List Event → Option (Errno × Buf × List Event)
  | 0, _, _ => none
  | fuel + 1, cpuidData, tr =>
    let r := env.getSupportedCpuid tr fd cpuidData
    let tr := tr ++ [Event.getSupportedCpuid fd cpuidData r.1 r.2]
    if r.2 = ENOMEM then
      supportedCpuid.query env fd fuel r.1 tr
    else
      some (r.2, r.1, tr)

/-- The extraction loop of `supportedCpuid` (`for i := 0; ; i += 1`), from index `i`
with the entries appended so far. -/
def supportedCpuid.extract (env : Env) (cpuidData : Buf) :
    Nat → Nat → List Cpuid → Option (List Cpuid)
  | 0, _, _ => none
  | fuel + 1, i, cpuids =>
    let r := env.cpuid_get cpuidData (C_int i)
    if r.1 ≠ 0 then
      some cpuids
    else
      supportedCpuid.extract env cpuidData fuel (i + 1) (cpuids ++ [r.2])

/-- The function `supportedCpuid(fd)`. -/
def supportedCpuid (env : Env) (fuel : Nat) (fd : Int) (tr : List Event) :
    Option ((List Cpuid × GoError) × List Event) :=
  let cpuidData : Buf := List.replicate PageSize 0
  let cpuidData := env.cpuid_init cpuidData PageSize
  match supportedCpuid.query env fd fuel cpuidData tr with
  | none => none
  | some (e, cpuidData, tr) =>
    if e ≠ 0 then
      some (([], some (Err.errno e)), tr)
    else
      match supportedCpuid.extract env cpuidData fuel 0 [] with
      | none => none
      | some cpuids => some ((cpuids, none), tr)

/-- The function `nativeCpuid(function)`. -/
def nativeCpuid (env : Env) (function : Nat) : Cpuid :=
  let r := env.cpuid_native function
  { Function := function, EAX := r.1, EBX := r.2.1, ECX := r.2.2.1, EDX := r.2.2.2 }

/-- The body of the range loop of `defaultCpuid`, run on the slice `cpuids` and the
loop variable `cpuid`; returns both as the body leaves them.  Every assignment of
the body has the loop variable as its target. -/
def defaultCpuid.body (env : Env) (cpuids : List Cpuid) (cpuid : Cpuid) :
    List Cpuid × Cpuid :=
  if cpuid.Function = 0 then
    let native_cpuid := nativeCpuid env cpuid.Function
    let cpuid := { cpuid with EAX := native_cpuid.EAX }
    let cpuid := { cpuid with EBX := native_cpuid.EBX }
    let cpuid := { cpuid with ECX := native_cpuid.ECX }
    let cpuid := { cpuid with EDX := native_cpuid.EDX }
    (cpuids, cpuid)
  else if cpuid.Function = 1 then
    let native_cpuid := nativeCpuid env cpuid.Function
    let cpuid := { cpuid with EAX := native_cpuid.EAX }
    let cpuid := { cpuid with EDX := (cpuid.EDX ||| (1 <<< 9)) % 2 ^ 32 }
    (cpuids, cpuid)
  else if cpuid.Function = 0x80000001 then
    let cpuid := { cpuid with EDX := cpuid.EDX &&& (2 ^ 32 - 1 - (1 <<< 19)) }
    (cpuids, cpuid)
  else
    (cpuids, cpuid)

/-- The loop `for _, cpuid := range cpuids` of `defaultCpuid`: `n` iterations are
left, the next index is `i`.  Each iteration declares the loop variable `cpuid`
as a copy of `cpuids[i]`, runs the body, and drops the loop variable. -/
def defaultCpuid.range (env : Env) : Nat → Nat → List Cpuid → List Cpuid
  | 0, _, cpuids => cpuids
  | n + 1, i, cpuids =>
    match cpuids.get? i with
    | none => cpuids
    | some cpuid => defaultCpuid.range env n (i + 1) (defaultCpuid.body env cpuids cpuid).1

/-- The function `defaultCpuid(fd)`. -/
def defaultCpuid (env : Env) (fuel : Nat) (fd : Int) (tr : List Event) :
    Option ((List Cpuid × GoError) × List Event) :=
  match supportedCpuid env fuel fd tr with
  | none => none
  | some ((_, some err), tr) => some (([], some err), tr)
  | some ((cpuids, none), tr) =>
    some ((defaultCpuid.range env cpuids.length 0 cpuids, none), tr)

/-- The serialisation loop of `Vcpu.SetCpuid` (`for i, cpuid := range cpuids`),
from index `i`: the first non-zero return value of `cpuid_set` (0 if none) and
the buffer. -/
def Vcpu.SetCpuid.serialise (env : Env) : List Cpuid → Nat → Buf → Int × Buf
  | [], _, cpuidData => (0, cpuidData)
  | cpuid :: rest, i, cpuidData =>
    let r := env.cpuid_set cpuidData (C_int PageSize) (C_int i) cpuid
    if r.1 ≠ 0 then
      (r.1, r.2)
    else
      Vcpu.SetCpuid.serialise env rest (i + 1) r.2

/-- The method `(vcpu *Vcpu) SetCpuid(cpuids)`: the vcpu after the call, the
returned error and the trace. -/
def Vcpu.SetCpuid (env : Env) (vcpu : Vcpu) (cpuids : List Cpuid) (tr : List Event) :
    (Vcpu × GoError) × List Event :=
  let cpuidData : Buf := List.replicate PageSize 0
  let s := Vcpu.SetCpuid.serialise env cpuids 0 cpuidData
  if s.1 ≠ 0 then
    ((vcpu, some (Err.errno (errnoOfCInt s.1))), tr)
  else
    let e := env.setCpuid tr vcpu.fd s.2
    let tr := tr ++ [Event.setCpuid vcpu.fd s.2 e]
    if e ≠ 0 then
      ((vcpu, some (Err.errno e)), tr)
    else
      (({ vcpu with cpuid := cpuids }, none), tr)

/-- The method `(vcpu *Vcpu) GetCpuid()`. -/
def Vcpu.GetCpuid (vcpu : Vcpu) : List Cpuid × GoError :=
  (vcpu.cpuid, none)


/-! ## kvm.go -/

/-- The function `getMmapSize(fd)`. -/
def getMmapSize (env : Env) (fd : Int) (tr : List Event) : (Int × GoError) × List Event :=
  let r := env.getVcpuMmapSize tr fd
  let tr := tr ++ [Event.getVcpuMmapSize fd r.1 r.2]
  if r.2 ≠ 0 then
    ((0, some (Err.errno r.2)), tr)
  else
    ((intOfUintptr r.1, none), tr)

/-- The loop `for _, capSpec := range requiredCapabilities` of `NewVm`: the error
that made `NewVm` return (`none` when the loop ran to its end) and the trace. -/
def NewVm.checkExtensions (env : Env) (fd : Int) :
    List CapabilityRequirement → List Event → GoError × List Event
  | [], tr => (none, tr)
  | capSpec :: rest, tr =>
    let err := env.checkCapability tr fd capSpec
    let tr := tr ++ [Event.checkCapability fd capSpec err]
    match err with
    | some x => (some x, tr)
    | none => NewVm.checkExtensions env fd rest tr

/-- The part of `NewVm` from "Create new VM." to the end. -/
def NewVm.create (env : Env) (fd : Int) (mmap_size : Int) (cpuid : List Cpuid)
    (msrs : List Nat) (tr : List Event) : (Option Vm × GoError) × List Event :=
  let r := env.createVm tr fd
  let tr := tr ++ [Event.createVm fd r.1 r.2]
  if r.2 ≠ 0 then
    ((none, some (Err.errno r.2)), tr)
  else
    let tr := tr ++ [Event.closeOnExec (intOfUintptr r.1)]
    let tr := tr ++ [Event.logPrint]
    let vm : Vm :=
      { fd := intOfUintptr r.1
        next_id := 0
        mem_region := 0
        cpuid := cpuid
        msrs := msrs
        mmap_size := mmap_size
        use_eventfds := false
        vcpus := [] }
    ((some vm, none), tr)

/-- The part of `NewVm` after the device is open (and its close deferred).
At `return nil, e` the variable `e` has the static type `syscall.Errno`, so the
`error` that is returned holds an `Errno` and is not nil, also when `e` is 0. -/
def NewVm.negotiate (env : Env) (fuel : Nat) (fd : Int) (tr : List Event) :
    Option ((Option Vm × GoError) × List Event) :=
  let v := env.getApiVersion tr fd
  let tr := tr ++ [Event.getApiVersion fd v.1 v.2]
  if v.1 ≠ 12 ∨ v.2 ≠ 0 then
    some ((none, some (Err.errno v.2)), tr)
  else
    match NewVm.checkExtensions env fd env.requiredCapabilities tr with
    | (some err, tr) => some ((none, some err), tr)
    | (none, tr) =>
      match getMmapSize env fd tr with
      | ((_, some err), tr) => some ((none, some err), tr)
      | ((mmap_size, none), tr) =>
        match defaultCpuid env fuel fd tr with
        | none => none
        | some ((_, some err), tr) => some ((none, some err), tr)
        | some ((cpuid, none), tr) =>
          let m := env.availableMsrs tr fd
          let tr := tr ++ [Event.availableMsrs fd m.1 m.2]
          match m.2 with
          | some err => some ((none, some err), tr)
          | none => some (NewVm.create env fd mmap_size cpuid m.1 tr)

/-- The function `NewVm()`: the returned `*Vm` (`none` is nil), the returned error
and the trace.  The deferred `syscall.Close(fd)` runs when the function returns. -/
def NewVm (env : Env) (fuel : Nat) (tr : List Event) :
    Option ((Option Vm × GoError) × List Event) :=
  let o := env.sysOpen tr
  let tr := tr ++ [Event.sysOpen o.1 o.2]
  match o.2 with
  | some err => some ((none, some err), tr)
  | none =>
    match NewVm.negotiate env fuel o.1 tr with
    | none => none
    | some (res, tr) => some (res, tr ++ [Event.close o.1])

/-- The method `(vm *Vm) Vcpus()`. -/
def Vm.Vcpus (vm : Vm) : List Vcpu :=
  vm.vcpus

/-! ## A scripted device

A concrete `Env` on which the definitions above can be evaluated.  Its buffer
helpers follow the layout of `struct kvm_cpuid2`: a 32-bit entry count, 32 bits
of padding, then entries of 40 bytes each. -/

/-- Little-endian 32-bit read at a byte offset. -/
def Sim.rd32 (b : Buf) (off : Nat) : Nat :=
  b.getD off 0 + 2 ^ 8 * b.getD (off + 1) 0 + 2 ^ 16 * b.getD (off + 2) 0
    + 2 ^ 24 * b.getD (off + 3) 0

/-- Little-endian 32-bit write at a byte offset. -/
def Sim.wr32 (b : Buf) (off v : Nat) : Buf :=
  (((b.set off (v % 256)).set (off + 1) (v / 2 ^ 8 % 256)).set (off + 2)
    (v / 2 ^ 16 % 256)).set (off + 3) (v / 2 ^ 24 % 256)

/-- Store one entry in slot `n`. -/
def Sim.putEntry (b : Buf) (n : Nat) (c : Cpuid) : Buf :=
  let o := 8 + 40 * n
  Sim.wr32 (Sim.wr32 (Sim.wr32 (Sim.wr32 (Sim.wr32 b o c.Function) (o + 12) c.EAX)
    (o + 16) c.EBX) (o + 20) c.ECX) (o + 24) c.EDX

/-- Load the entry in slot `n`. -/
def Sim.getEntry (b : Buf) (n : Nat) : Cpuid :=
  let o := 8 + 40 * n
  { Function := Sim.rd32 b o, EAX := Sim.rd32 b (o + 12), EBX := Sim.rd32 b (o + 16),
    ECX := Sim.rd32 b (o + 20), EDX := Sim.rd32 b (o + 24) }

/-- Store a table from slot `n` on. -/
def Sim.putTable : Buf → Nat → List Cpuid → Buf
  | b, _, [] => b
  | b, n, c :: cs => Sim.putTable (Sim.putEntry b n c) (n + 1) cs

/-- Number of `getSupportedCpuid` calls in a trace. -/
def Sim.queries : List Event → Nat
  | [] => 0
  | Event.getSupportedCpuid _ _ _ _ :: tr => Sim.queries tr + 1
  | _ :: tr => Sim.queries tr

/-- Settings of the scripted device. -/
structure Sim where
  /-- Descriptor handed out by open. -/
  devFd : Int
  /-- Error of open. -/
  openErr : GoError
  /-- Answer of the version call. -/
  version : Nat × Errno
  /-- The required capabilities. -/
  required : List CapabilityRequirement
  /-- Capability ids the device lacks. -/
  missing : List Nat
  /-- Answer of the mmap-size call. -/
  mmapSize : Nat × Errno
  /-- How many times the supported-CPUID call answers ENOMEM first. -/
  retries : Nat
  /-- Errno of the supported-CPUID call after that. -/
  queryErrno : Errno
  /-- Table the supported-CPUID call stores when it succeeds. -/
  supported : List Cpuid
  /-- Registers of the host CPU, whatever the leaf. -/
  native : Nat × Nat × Nat × Nat
  /-- Answer of availableMsrs. -/
  msrs : List Nat × GoError
  /-- Answer of the create-VM call. -/
  vmFd : Nat × Errno
  /-- Errno of the set-CPUID call. -/
  setErrno : Errno

/-- The `Env` of a scripted device. -/
def Sim.env (s : Sim) : Env where
  requiredCapabilities := s.required
  cpuid_init := fun b size => Sim.wr32 b 0 ((size - 8) / 40)
  cpuid_get := fun b n =>
    if n < 0 ∨ (Sim.rd32 b 0 : Int) ≤ n then (7, ⟨0, 0, 0, 0, 0⟩) else (0, Sim.getEntry b n.toNat)
  cpuid_set := fun b size n c =>
    if n < 0 ∨ size < 8 + 40 * (n + 1) then (12, b)
    else (0, Sim.wr32 (Sim.putEntry b n.toNat c) 0 (n.toNat + 1))
  cpuid_native := fun _ => s.native
  sysOpen := fun _ => (s.devFd, s.openErr)
  getApiVersion := fun _ _ => s.version
  checkCapability := fun _ _ capSpec => if capSpec.id ∈ s.missing then some (Err.other capSpec.id) else none
  getVcpuMmapSize := fun _ _ => s.mmapSize
  getSupportedCpuid := fun tr _ b =>
    if Sim.queries tr < s.retries then (Sim.wr32 b 0 s.supported.length, ENOMEM)
    else if s.queryErrno ≠ 0 then (b, s.queryErrno)
    else (Sim.wr32 (Sim.putTable b 0 s.supported) 0 s.supported.length, 0)
  availableMsrs := fun _ _ => s.msrs
  createVm := fun _ _ => s.vmFd
  setCpuid := fun _ _ _ => s.setErrno

/-- A device on which everything succeeds: version 12, two capabilities, three
supported leaves (0, 1 and 0x80000001) and one ENOMEM before the table is stored. -/
def Sim.good : Sim where
  devFd := 3
  openErr := none
  version := (12, 0)
  required := [⟨0, none⟩, ⟨10, some 1⟩]
  missing := []
  mmapSize := (12288, 0)
  retries := 1
  queryErrno := 0
  supported := [⟨0, 13, 0x756e6547, 0x6c65746e, 0x49656e69⟩, ⟨1, 0x306a9, 0, 0, 0⟩,
    ⟨0x80000001, 0, 0, 1, 0x28180800⟩]
  native := (22, 0x68747541, 0x444d4163, 0x69746e65)
  msrs := ([0x174, 0x175], none)
  vmFd := (4, 0)
  setErrno := 0

/-- The device `Sim.good` with a set-CPUID call that answers EINVAL. -/
def Sim.setFails : Sim :=
  { Sim.good with setErrno := 22 }

/-- The device `Sim.good` with a supported-CPUID call that answers EINVAL after
its one ENOMEM. -/
def Sim.queryFails : Sim :=
  { Sim.good with queryErrno := 22 }

/-- The device `Sim.good` answering version 11 with errno 0 to the version call. -/
def Sim.version11 : Sim :=
  { Sim.good with version := (11, 0) }

/-- The device `Sim.good` with a version call that fails: result -1, errno 25. -/
def Sim.versionFails : Sim :=
  { Sim.good with version := (0xffffffffffffffff, 25) }

/-- The device `Sim.good` (version 12) with an mmap-size call that fails: result -1,
errno 25. -/
def Sim.mmapFails : Sim :=
  { Sim.good with mmapSize := (0xffffffffffffffff, 25) }

/-- The device `Sim.good` without the capability 10. -/
def Sim.capMissing : Sim :=
  { Sim.good with missing := [10] }

/-- The Vm that `NewVm` builds on the device `Sim.good`. -/
def Sim.goodVm : Vm where
  fd := 4
  next_id := 0
  mem_region := 0
  cpuid := Sim.good.supported
  msrs := [0x174, 0x175]
  mmap_size := 12288
  use_eventfds := false
  vcpus := []

/-- The trace of `NewVm` on the device `Sim.good`, from an empty trace. -/
def Sim.goodRun : List Event :=
  ((NewVm Sim.good.env 5 []).map Prod.snd).getD []

/-- A table of 103 entries, one more than fits in a page after the 8-byte header. -/
def Sim.tooLong : List Cpuid :=
  List.replicate 103 ⟨2, 0, 0, 0, 0⟩

/-- The trace of one `supportedCpuid(3)` on the device `Sim.good`, from an empty trace. -/
def Sim.goodQuery : List Event :=
  ((supportedCpuid Sim.good.env 5 3 []).map Prod.snd).getD []

/-! ## Vocabulary of the statements -/

/-- The buffer `supportedCpuid` hands to its first call: a zeroed page after
`cpuid_init`. -/
def supportedCpuid.buffer (env : Env) : Buf :=
  env.cpuid_init (List.replicate PageSize 0) PageSize

/-- A run of get-supported-CPUID calls issued back to back on one buffer, starting
from buffer `b` and trace `tr`: the buffer and the trace after `k` calls. -/
def queryChain (env : Env) (fd : Int) (b : Buf) (tr : List Event) : Nat → Buf × List Event
  | 0 => (b, tr)
  | k + 1 =>
    let s := queryChain env fd b tr k
    let r := env.getSupportedCpuid s.2 fd s.1
    (r.1, s.2 ++ [Event.getSupportedCpuid fd s.1 r.1 r.2])

/-- The errno the device answers to call number `k` (from 0) of that run. -/
def queryAnswer (env : Env) (fd : Int) (b : Buf) (tr : List Event) (k : Nat) : Errno :=
  (env.getSupportedCpuid (queryChain env fd b tr k).2 fd (queryChain env fd b tr k).1).2

/-- The event of call number `k` (from 0) of that run: its input buffer is the buffer
the previous call left. -/
def queryEvent (env : Env) (fd : Int) (b : Buf) (tr : List Event) (k : Nat) : Event :=
  Event.getSupportedCpuid fd (queryChain env fd b tr k).1 (queryChain env fd b tr (k + 1)).1
    (queryAnswer env fd b tr k)

/-- Place of a call in the order in which `NewVm` makes its calls. -/
def Event.rank : Event → Nat
  | Event.sysOpen _ _ => 0
  | Event.getApiVersion _ _ _ => 1
  | Event.checkCapability _ _ _ => 2
  | Event.getVcpuMmapSize _ _ _ => 3
  | Event.getSupportedCpuid _ _ _ _ => 4
  | Event.availableMsrs _ _ _ => 5
  | Event.createVm _ _ _ => 6
  | Event.closeOnExec _ => 7
  | Event.logPrint => 8
  | Event.close _ => 9
  | Event.setCpuid _ _ _ => 10

/-- The calls that belong to the five steps of `NewVm` after the version check:
capability checks, mmap size, `defaultCpuid`, `availableMsrs`, create VM. -/
def Event.isStep (ev : Event) : Prop :=
  2 ≤ ev.rank ∧ ev.rank ≤ 6

/-- The error with which a call makes its step fail, if it does: a non-nil error of
`checkCapability` or `availableMsrs`, a non-zero errno of the mmap-size or
create-VM call, an errno other than 0 and ENOMEM of the supported-CPUID call. -/
def Event.stepError : Event → Option Err
  | Event.checkCapability _ _ err => err
  | Event.getVcpuMmapSize _ _ e => if e ≠ 0 then some (Err.errno e) else none
  | Event.getSupportedCpuid _ _ _ e => if e ≠ 0 ∧ e ≠ ENOMEM then some (Err.errno e) else none
  | Event.availableMsrs _ _ err => err
  | Event.createVm _ _ e => if e ≠ 0 then some (Err.errno e) else none
  | _ => none

/-- The capability a check-extension call asks about. -/
def Event.capSpec? : Event → Option CapabilityRequirement
  | Event.checkCapability _ capSpec _ => some capSpec
  | _ => none

/-- A stretch of calls in the order of `NewVm`, none later than place `k`, in which
no step fails. -/
def CleanRun (k : Nat) (evs : List Event) : Prop :=
  evs.Pairwise (fun a b => a.rank ≤ b.rank)
    ∧ (∀ ev ∈ evs, ev.rank ≤ k)
    ∧ (∀ ev ∈ evs, ev.stepError = none)

/-- What a run of `NewVm` that returned `(ovm, err)` after the calls `evs` satisfies:
the calls are in the order of the steps, capabilities are checked in list order, no
step is performed after a failing call, a failing call gives the returned error and
a nil Vm, and a Vm is returned only after every step was performed and succeeded. -/
def NewVm.Post (env : Env) (ovm : Option Vm) (err : GoError) (evs : List Event) : Prop :=
  evs.Pairwise (fun a b => a.rank ≤ b.rank)
    ∧ evs.filterMap Event.capSpec? <+: env.requiredCapabilities
    ∧ evs.Pairwise (fun a b => a.stepError ≠ none → ¬ b.isStep)
    ∧ (∀ ev ∈ evs, ∀ x, ev.stepError = some x → ovm = none ∧ err = some x)
    ∧ (ovm = none → err ≠ none)
    ∧ (ovm ≠ none →
        err = none
        ∧ (∀ ev ∈ evs, ev.stepError = none)
        ∧ evs.filterMap Event.capSpec? = env.requiredCapabilities
        ∧ (∃ fd r, Event.getVcpuMmapSize fd r 0 ∈ evs)
        ∧ (∃ fd b b', Event.getSupportedCpuid fd b b' 0 ∈ evs)
        ∧ (∃ fd msrs, Event.availableMsrs fd msrs none ∈ evs)
        ∧ (∃ fd vmfd, Event.createVm fd vmfd 0 ∈ evs))

/-! ## Theorems -/

/-- A run whose result is known has that result and its own trace. -/
theorem eq_some_of_map_fst {α β : Type} {o : Option (α × List β)} {a : α}
    (h : o.map Prod.fst = some a) : o = some (a, (o.map Prod.snd).getD []) := by
  cases o with
  | none => simp at h
  | some p =>
    obtain ⟨x, t⟩ := p
    simp only [Option.map_some', Option.some.injEq] at h
    simp [h]

/-! ### `defaultCpuid` -/

theorem defaultCpuid.body_fst (env : Env) (cpuids : List Cpuid) (cpuid : Cpuid) :
    (defaultCpuid.body env cpuids cpuid).1 = cpuids := by
  unfold defaultCpuid.body
  split_ifs <;> rfl

theorem defaultCpuid.range_eq (env : Env) (n i : Nat) (cpuids : List Cpuid) :
    defaultCpuid.range env n i cpuids = cpuids := by
  induction n generalizing i cpuids with
  | zero => rfl
  | succ n ih =>
    unfold defaultCpuid.range
    cases h : cpuids.get? i with
    | none => rfl
    | some cpuid => simp only [defaultCpuid.body_fst, ih]

/-- The table `defaultCpuid` returns is the list `supportedCpuid` returned. -/
theorem defaultCpuid_of_supported (env : Env) (fuel : Nat) (fd : Int) (tr tr' : List Event)
    (S : List Cpuid) (h : supportedCpuid env fuel fd tr = some ((S, none), tr')) :
    defaultCpuid env fuel fd tr = some ((S, none), tr') := by
  unfold defaultCpuid
  rw [h]
  simp only [defaultCpuid.range_eq]

/-- C1, evaluated: on the device `Sim.good` the supported-CPUID call reports leaf 1
with EDX = 0, `defaultCpuid` succeeds, and leaf 1 of the table it returns still has
EDX = 0, so bit 9 (0x200) is clear. -/
theorem defaultCpuid_leaf1_edx_bit9_clear :
    (defaultCpuid Sim.good.env 5 3 []).map Prod.fst
        = some ([⟨0, 13, 0x756e6547, 0x6c65746e, 0x49656e69⟩, ⟨1, 0x306a9, 0, 0, 0⟩,
            ⟨0x80000001, 0, 0, 1, 0x28180800⟩], none)
      ∧ (⟨1, 0x306a9, 0, 0, 0⟩ : Cpuid).EDX &&& 0x200 = 0 := by
  set_option maxRecDepth 100000 in decide

/-- C2, evaluated: on the device `Sim.good` the supported-CPUID call reports leaf
0x80000001 with EDX = 0x28180800, `defaultCpuid` succeeds, and that leaf of the
table it returns still has EDX = 0x28180800, so bit 19 (0x80000) is set. -/
theorem defaultCpuid_leaf80000001_edx_bit19_set :
    (defaultCpuid Sim.good.env 5 3 []).map (fun r => r.1.1.get? 2)
        = some (some ⟨0x80000001, 0, 0, 1, 0x28180800⟩)
      ∧ (⟨0x80000001, 0, 0, 1, 0x28180800⟩ : Cpuid).EDX &&& 0x80000 = 0x80000 := by
  set_option maxRecDepth 100000 in decide

/-- C3, evaluated: on the device `Sim.good` the host's leaf 0 is
(22, 0x68747541, 0x444d4163, 0x69746e65), the supported-CPUID call reports leaf 0 as
(13, 0x756e6547, 0x6c65746e, 0x49656e69), `defaultCpuid` succeeds, and leaf 0 of the
table it returns holds the reported registers, not the host's. -/
theorem defaultCpuid_leaf0_not_host :
    nativeCpuid Sim.good.env 0 = ⟨0, 22, 0x68747541, 0x444d4163, 0x69746e65⟩
      ∧ (defaultCpuid Sim.good.env 5 3 []).map (fun r => r.1.1.get? 0)
        = some (some ⟨0, 13, 0x756e6547, 0x6c65746e, 0x49656e69⟩) := by
  set_option maxRecDepth 100000 in decide

/-- C9: when `supportedCpuid` returns the list S, `defaultCpuid` returns a table T of
the same length, with the same Function at every position, equal to S at every
position whose Function is none of 0, 1 and 0x80000001, with EBX and ECX of S at a
Function-1 position and EAX, EBX and ECX of S at a Function-0x80000001 position. -/
theorem defaultCpuid_frame (env : Env) (fuel : Nat) (fd : Int) (tr tr' : List Event)
    (S : List Cpuid) (h : supportedCpuid env fuel fd tr = some ((S, none), tr')) :
    ∃ T, defaultCpuid env fuel fd tr = some ((T, none), tr')
      ∧ T.length = S.length
      ∧ T.map Cpuid.Function = S.map Cpuid.Function
      ∧ ∀ i s t, S.get? i = some s → T.get? i = some t →
          (s.Function ≠ 0 → s.Function ≠ 1 → s.Function ≠ 0x80000001 → t = s)
          ∧ (s.Function = 1 → t.EBX = s.EBX ∧ t.ECX = s.ECX)
          ∧ (s.Function = 0x80000001 → t.EAX = s.EAX ∧ t.EBX = s.EBX ∧ t.ECX = s.ECX) := by
  refine ⟨S, defaultCpuid_of_supported env fuel fd tr tr' S h, rfl, rfl, ?_⟩
  intro i s t hs ht
  rw [hs] at ht
  cases ht
  exact ⟨fun _ _ _ => rfl, fun _ => ⟨rfl, rfl⟩, fun _ => ⟨rfl, rfl, rfl⟩⟩

theorem defaultCpuid_frame_witness :
    supportedCpuid Sim.good.env 5 3 [] = some ((Sim.good.supported, none), Sim.goodQuery)
      ∧ ∃ T, defaultCpuid Sim.good.env 5 3 [] = some ((T, none), Sim.goodQuery)
        ∧ T.length = Sim.good.supported.length
        ∧ T.map Cpuid.Function = Sim.good.supported.map Cpuid.Function
        ∧ ∀ i s t, Sim.good.supported.get? i = some s → T.get? i = some t →
            (s.Function ≠ 0 → s.Function ≠ 1 → s.Function ≠ 0x80000001 → t = s)
            ∧ (s.Function = 1 → t.EBX = s.EBX ∧ t.ECX = s.ECX)
            ∧ (s.Function = 0x80000001 →
                t.EAX = s.EAX ∧ t.EBX = s.EBX ∧ t.ECX = s.ECX) :=
  have h : supportedCpuid Sim.good.env 5 3 []
      = some ((Sim.good.supported, none), Sim.goodQuery) :=
    eq_some_of_map_fst (by set_option maxRecDepth 100000 in decide)
  ⟨h, defaultCpuid_frame Sim.good.env 5 3 [] Sim.goodQuery Sim.good.supported h⟩

/-! ### `Vcpu.SetCpuid` and `Vcpu.GetCpuid` -/

/-- C4: if `vcpu.SetCpuid(T)` returns a nil error, `GetCpuid` on the vcpu as the
call left it returns exactly T and a nil error. -/
theorem SetCpuid_GetCpuid_roundtrip (env : Env) (vcpu : Vcpu) (T : List Cpuid)
    (tr : List Event) (h : (Vcpu.SetCpuid env vcpu T tr).1.2 = none) :
    Vcpu.GetCpuid (Vcpu.SetCpuid env vcpu T tr).1.1 = (T, none) := by
  unfold Vcpu.SetCpuid at h ⊢
  simp only at h ⊢
  split_ifs at h ⊢ with h1 h2
  rfl

theorem SetCpuid_GetCpuid_roundtrip_witness :
    (Vcpu.SetCpuid Sim.good.env ⟨0, 5, []⟩ Sim.good.supported []).1.2 = none
      ∧ Vcpu.GetCpuid (Vcpu.SetCpuid Sim.good.env ⟨0, 5, []⟩ Sim.good.supported []).1.1
        = (Sim.good.supported, none) :=
  have h : (Vcpu.SetCpuid Sim.good.env ⟨0, 5, []⟩ Sim.good.supported []).1.2 = none := by
    set_option maxRecDepth 100000 in decide
  ⟨h, SetCpuid_GetCpuid_roundtrip Sim.good.env ⟨0, 5, []⟩ Sim.good.supported [] h⟩

/-- C8: if serialising T into the page fails (the loop over `cpuid_set` ends on a
non-zero return value) or the set-CPUID call answers a non-zero errno, then
`vcpu.SetCpuid(T)` returns a non-nil error and leaves the vcpu as it was, so that
`GetCpuid` still returns the cached table; and when serialising fails no call is
made at all (the trace is unchanged). -/
theorem SetCpuid_failure_keeps_cache (env : Env) (vcpu : Vcpu) (T : List Cpuid)
    (tr : List Event)
    (hfail : (Vcpu.SetCpuid.serialise env T 0 (List.replicate PageSize 0)).1 ≠ 0
      ∨ env.setCpuid tr vcpu.fd
          (Vcpu.SetCpuid.serialise env T 0 (List.replicate PageSize 0)).2 ≠ 0) :
    (Vcpu.SetCpuid env vcpu T tr).1.2 ≠ none
      ∧ (Vcpu.SetCpuid env vcpu T tr).1.1 = vcpu
      ∧ Vcpu.GetCpuid (Vcpu.SetCpuid env vcpu T tr).1.1 = (vcpu.cpuid, none)
      ∧ ((Vcpu.SetCpuid.serialise env T 0 (List.replicate PageSize 0)).1 ≠ 0 →
          (Vcpu.SetCpuid env vcpu T tr).2 = tr) := by
  unfold Vcpu.SetCpuid
  simp only
  split_ifs with h1 h2
  · exact ⟨by simp, rfl, rfl, fun _ => rfl⟩
  · exact ⟨by simp, rfl, rfl, fun h => absurd h h1⟩
  · rcases hfail with h | h
    · exact absurd h h1
    · exact absurd h h2

theorem SetCpuid_failure_keeps_cache_witness :
    ((Vcpu.SetCpuid.serialise Sim.good.env Sim.tooLong 0 (List.replicate PageSize 0)).1 ≠ 0
      ∨ Sim.good.env.setCpuid [] 5
          (Vcpu.SetCpuid.serialise Sim.good.env Sim.tooLong 0 (List.replicate PageSize 0)).2 ≠ 0)
      ∧ ((Vcpu.SetCpuid Sim.good.env ⟨0, 5, Sim.good.supported⟩ Sim.tooLong []).1.2 ≠ none
        ∧ (Vcpu.SetCpuid Sim.good.env ⟨0, 5, Sim.good.supported⟩ Sim.tooLong []).1.1
            = ⟨0, 5, Sim.good.supported⟩
        ∧ Vcpu.GetCpuid (Vcpu.SetCpuid Sim.good.env ⟨0, 5, Sim.good.supported⟩ Sim.tooLong []).1.1
            = (Sim.good.supported, none)
        ∧ ((Vcpu.SetCpuid.serialise Sim.good.env Sim.tooLong 0 (List.replicate PageSize 0)).1 ≠ 0 →
            (Vcpu.SetCpuid Sim.good.env ⟨0, 5, Sim.good.supported⟩ Sim.tooLong []).2 = []))
      ∧ (Vcpu.SetCpuid Sim.setFails.env ⟨0, 5, Sim.good.supported⟩ [⟨7, 0, 0, 0, 0⟩] []).1.2 ≠ none
      ∧ (Vcpu.SetCpuid Sim.setFails.env ⟨0, 5, Sim.good.supported⟩ [⟨7, 0, 0, 0, 0⟩] []).1.1
          = ⟨0, 5, Sim.good.supported⟩ :=
  have h1 : (Vcpu.SetCpuid.serialise Sim.good.env Sim.tooLong 0
      (List.replicate PageSize 0)).1 ≠ 0 := by
    set_option maxRecDepth 100000 in decide
  have h2 := SetCpuid_failure_keeps_cache Sim.setFails.env ⟨0, 5, Sim.good.supported⟩
    [⟨7, 0, 0, 0, 0⟩] [] (Or.inr (by set_option maxRecDepth 100000 in decide))
  ⟨Or.inl h1,
    SetCpuid_failure_keeps_cache Sim.good.env ⟨0, 5, Sim.good.supported⟩ Sim.tooLong []
      (Or.inl h1),
    h2.1, h2.2.1⟩

/-! ### `supportedCpuid` -/

theorem queryChain_succ_left (env : Env) (fd : Int) (b : Buf) (tr : List Event) (k : Nat) :
    queryChain env fd b tr (k + 1)
      = queryChain env fd (env.getSupportedCpuid tr fd b).1
          (tr ++ [Event.getSupportedCpuid fd b (env.getSupportedCpuid tr fd b).1
            (env.getSupportedCpuid tr fd b).2]) k := by
  induction k with
  | zero => rfl
  | succ k ih =>
    conv_lhs => unfold queryChain
    rw [ih]
    rfl

theorem queryAnswer_succ_left (env : Env) (fd : Int) (b : Buf) (tr : List Event) (k : Nat) :
    queryAnswer env fd b tr (k + 1)
      = queryAnswer env fd (env.getSupportedCpuid tr fd b).1
          (tr ++ [Event.getSupportedCpuid fd b (env.getSupportedCpuid tr fd b).1
            (env.getSupportedCpuid tr fd b).2]) k := by
  unfold queryAnswer
  rw [queryChain_succ_left]

theorem queryChain_trace (env : Env) (fd : Int) (b : Buf) (tr : List Event) (k : Nat) :
    (queryChain env fd b tr k).2 = tr ++ (List.range k).map (queryEvent env fd b tr) := by
  induction k with
  | zero => simp [queryChain]
  | succ k ih =>
    rw [List.range_succ, List.map_append, ← List.append_assoc, ← ih]
    rfl

/-- The retry loop: after `n` ENOMEM answers and one other answer `e`, the loop has
made `n + 1` calls and ends with `e`. -/
theorem supportedCpuid.query_eq (env : Env) (fd : Int) (n : Nat) :
    ∀ (fuel : Nat) (b : Buf) (tr : List Event) (e : Errno),
      (∀ k, k < n → queryAnswer env fd b tr k = ENOMEM) →
      queryAnswer env fd b tr n = e → e ≠ ENOMEM → n < fuel →
      supportedCpuid.query env fd fuel b tr
        = some (e, (queryChain env fd b tr (n + 1)).1, (queryChain env fd b tr (n + 1)).2) := by
  induction n with
  | zero =>
    intro fuel b tr e _ hlast hne hfuel
    obtain ⟨f, rfl⟩ : ∃ f, fuel = f + 1 := ⟨fuel - 1, by omega⟩
    have hlast' : (env.getSupportedCpuid tr fd b).2 = e := hlast
    unfold supportedCpuid.query
    simp only [hlast', hne, if_false]
    simp only [queryChain, hlast']
  | succ n ih =>
    intro fuel b tr e hretry hlast hne hfuel
    obtain ⟨f, rfl⟩ : ∃ f, fuel = f + 1 := ⟨fuel - 1, by omega⟩
    have h0 : (env.getSupportedCpuid tr fd b).2 = ENOMEM := hretry 0 (by omega)
    unfold supportedCpuid.query
    simp only [h0, if_true]
    have := ih f (env.getSupportedCpuid tr fd b).1
      (tr ++ [Event.getSupportedCpuid fd b (env.getSupportedCpuid tr fd b).1
        (env.getSupportedCpuid tr fd b).2]) e
      (fun k hk => by rw [← queryAnswer_succ_left]; exact hretry (k + 1) (by omega))
      (by rw [← queryAnswer_succ_left]; exact hlast) hne (by omega)
    rw [h0] at this
    rw [this, queryChain_succ_left env fd b tr (n + 1), h0]

/-- The extraction loop: if `cpuid_get` returns 0 at the next `m` indices and non-zero
at the one after, the loop appends the `m` entries read. -/
theorem supportedCpuid.extract_eq (env : Env) (cpuidData : Buf) (m : Nat) :
    ∀ (fuel i : Nat) (cpuids : List Cpuid),
      (∀ j, j < m → (env.cpuid_get cpuidData (C_int ((i + j : Nat) : Int))).1 = 0) →
      (env.cpuid_get cpuidData (C_int ((i + m : Nat) : Int))).1 ≠ 0 → m < fuel →
      supportedCpuid.extract env cpuidData fuel i cpuids
        = some (cpuids ++ (List.range m).map
            (fun j => (env.cpuid_get cpuidData (C_int ((i + j : Nat) : Int))).2)) := by
  induction m with
  | zero =>
    intro fuel i cpuids _ hstop hfuel
    obtain ⟨f, rfl⟩ : ∃ f, fuel = f + 1 := ⟨fuel - 1, by omega⟩
    unfold supportedCpuid.extract
    simp only [Nat.add_zero] at hstop
    simp [hstop]
  | succ m ih =>
    intro fuel i cpuids hok hstop hfuel
    obtain ⟨f, rfl⟩ : ∃ f, fuel = f + 1 := ⟨fuel - 1, by omega⟩
    have h0 : (env.cpuid_get cpuidData (C_int ((i : Nat) : Int))).1 = 0 := by
      simpa using hok 0 (by omega)
    unfold supportedCpuid.extract
    simp only [h0, ne_eq, not_true_eq_false, if_false]
    rw [ih f (i + 1) _ (fun j hj => by
        have := hok (j + 1) (by omega)
        rwa [show i + (j + 1) = i + 1 + j by omega] at this)
      (by rwa [show i + (m + 1) = i + 1 + m by omega] at hstop) (by omega)]
    have hfun : (fun j => (env.cpuid_get cpuidData (C_int ((i + 1 + j : Nat) : Int))).2)
        = (fun j => (env.cpuid_get cpuidData (C_int ((i + (j + 1) : Nat) : Int))).2) := by
      funext j
      rw [show i + 1 + j = i + (j + 1) by omega]
    rw [hfun, List.range_succ_eq_map, List.map_cons, List.map_map, List.append_assoc]
    rfl

theorem supportedCpuid_unfold (env : Env) (fuel : Nat) (fd : Int) (tr : List Event) :
    supportedCpuid env fuel fd tr
      = match supportedCpuid.query env fd fuel (supportedCpuid.buffer env) tr with
        | none => none
        | some (e, cpuidData, tr) =>
          if e ≠ 0 then
            some (([], some (Err.errno e)), tr)
          else
            match supportedCpuid.extract env cpuidData fuel 0 [] with
            | none => none
            | some cpuids => some ((cpuids, none), tr) :=
  rfl

theorem queryEvents_get? (env : Env) (fd : Int) (b : Buf) (tr : List Event) (n k : Nat)
    (hk : k < n) :
    ((List.range n).map (queryEvent env fd b tr)).get? k = some (queryEvent env fd b tr k) := by
  simp [List.get?_eq_getElem?, List.getElem?_map, List.getElem?_range, hk]

/-- C6: let the device answer ENOMEM to the first `n` get-supported-CPUID calls that
`supportedCpuid` issues back to back, and `e`, not ENOMEM, to the next one.  Then,
with fuel for `n + 1` calls, `supportedCpuid` returns after exactly `n + 1` calls,
all of them get-supported-CPUID calls: the first on the initialised page, each
later one on the buffer exactly as the call before it (answered ENOMEM) left it.
If `e = 0`, and `cpuid_get` on the final buffer returns 0 at indices below `m` and
non-zero at `m`, the result is the `m` entries read and a nil error; if `e ≠ 0`,
the result is no entries and the error `e`. -/
theorem supportedCpuid_retries (env : Env) (fd : Int) (tr : List Event) (n m fuel : Nat)
    (e : Errno)
    (hretry : ∀ k, k < n → queryAnswer env fd (supportedCpuid.buffer env) tr k = ENOMEM)
    (hlast : queryAnswer env fd (supportedCpuid.buffer env) tr n = e)
    (hne : e ≠ ENOMEM)
    (hget : e = 0 →
      (∀ i, i < m → (env.cpuid_get (queryChain env fd (supportedCpuid.buffer env) tr (n + 1)).1
          (C_int ((i : Nat) : Int))).1 = 0)
      ∧ (env.cpuid_get (queryChain env fd (supportedCpuid.buffer env) tr (n + 1)).1
          (C_int ((m : Nat) : Int))).1 ≠ 0)
    (hfuel : n < fuel ∧ m < fuel) :
    ∃ calls : List Event,
      calls.length = n + 1
      ∧ (∃ b a, calls.get? 0
          = some (Event.getSupportedCpuid fd (supportedCpuid.buffer env) b a))
      ∧ (∀ k, k < n → ∃ b0 b1 b2 a,
          calls.get? k = some (Event.getSupportedCpuid fd b0 b1 ENOMEM)
          ∧ calls.get? (k + 1) = some (Event.getSupportedCpuid fd b1 b2 a))
      ∧ ∃ b0 b1, calls.get? n = some (Event.getSupportedCpuid fd b0 b1 e)
          ∧ (e = 0 → supportedCpuid env fuel fd tr
              = some (((List.range m).map
                  (fun i => (env.cpuid_get b1 (C_int ((i : Nat) : Int))).2), none), tr ++ calls))
          ∧ (e ≠ 0 → supportedCpuid env fuel fd tr
              = some (([], some (Err.errno e)), tr ++ calls)) := by
  have hq := supportedCpuid.query_eq env fd n fuel (supportedCpuid.buffer env) tr e
    hretry hlast hne hfuel.1
  rw [queryChain_trace] at hq
  refine ⟨(List.range (n + 1)).map (queryEvent env fd (supportedCpuid.buffer env) tr),
    by simp, ?_, ?_, ?_⟩
  · rw [queryEvents_get? _ _ _ _ _ _ (by omega)]
    exact ⟨_, _, rfl⟩
  · intro k hk
    rw [queryEvents_get? _ _ _ _ _ _ (by omega), queryEvents_get? _ _ _ _ _ _ (by omega)]
    refine ⟨(queryChain env fd (supportedCpuid.buffer env) tr k).1,
      (queryChain env fd (supportedCpuid.buffer env) tr (k + 1)).1,
      (queryChain env fd (supportedCpuid.buffer env) tr (k + 1 + 1)).1,
      queryAnswer env fd (supportedCpuid.buffer env) tr (k + 1), ?_, rfl⟩
    unfold queryEvent
    rw [hretry k hk]
  · rw [queryEvents_get? _ _ _ _ _ _ (by omega)]
    refine ⟨(queryChain env fd (supportedCpuid.buffer env) tr n).1,
      (queryChain env fd (supportedCpuid.buffer env) tr (n + 1)).1,
      by unfold queryEvent; rw [hlast], ?_, ?_⟩
    · intro he
      obtain ⟨hok, hstop⟩ := hget he
      have hx := supportedCpuid.extract_eq env
        (queryChain env fd (supportedCpuid.buffer env) tr (n + 1)).1 m fuel 0 []
        (fun j hj => by simpa using hok j hj) (by simpa using hstop) hfuel.2
      rw [supportedCpuid_unfold, hq]
      simp only [he, ne_eq, not_true_eq_false, if_false]
      rw [hx]
      simp
    · intro he
      rw [supportedCpuid_unfold, hq]
      simp only [ne_eq, he, not_false_eq_true, if_true]

theorem supportedCpuid_retries_witness :
    (supportedCpuid Sim.good.env 5 3 []).map Prod.fst = some (Sim.good.supported, none)
      ∧ (supportedCpuid Sim.queryFails.env 5 3 []).map Prod.fst = some ([], some (Err.errno 22))
      ∧ (∃ calls : List Event, calls.length = 1 + 1
          ∧ ∃ b0 b1, calls.get? 1 = some (Event.getSupportedCpuid 3 b0 b1 0)
            ∧ supportedCpuid Sim.good.env 5 3 []
              = some (((List.range 3).map
                  (fun i => (Sim.good.env.cpuid_get b1 (C_int ((i : Nat) : Int))).2), none),
                [] ++ calls))
      ∧ ∃ calls : List Event, calls.length = 1 + 1
          ∧ supportedCpuid Sim.queryFails.env 5 3 []
              = some (([], some (Err.errno 22)), [] ++ calls) := by
  have h0 := supportedCpuid_retries Sim.good.env 3 [] 1 3 5 0
    (by set_option maxRecDepth 100000 in decide)
    (by set_option maxRecDepth 100000 in decide)
    (by decide)
    (fun _ => by set_option maxRecDepth 100000 in decide)
    (by decide)
  have h1 := supportedCpuid_retries Sim.queryFails.env 3 [] 1 0 5 22
    (by set_option maxRecDepth 100000 in decide)
    (by set_option maxRecDepth 100000 in decide)
    (by decide)
    (fun h => absurd h (by decide))
    (by decide)
  obtain ⟨c0, hl0, -, -, b0, b1, hg0, hs0, -⟩ := h0
  obtain ⟨c1, hl1, -, -, -, -, -, -, hf1⟩ := h1
  refine ⟨?_, ?_, ⟨c0, hl0, b0, b1, hg0, hs0 rfl⟩, ⟨c1, hl1, hf1 (by decide)⟩⟩
  · set_option maxRecDepth 100000 in decide
  · set_option maxRecDepth 100000 in decide

/-! ### `NewVm` -/

theorem intOfUintptr_of_lt (x : Nat) (h : x < 2 ^ 63) : intOfUintptr x = (x : Int) := by
  unfold intOfUintptr
  have h1 : x % 2 ^ 64 = x := Nat.mod_eq_of_lt (by omega)
  rw [h1, if_pos h]

/-- C5, as amended: if the device opens and its get-interface-version call answers a
version other than 12, with any errno `e` (zero or not), `NewVm` returns nil and a
non-nil error, which is the errno `e` of the version call converted to `error`
(`Errno(0)` when the call itself reported no error), and the calls it made are
exactly the open, the version call and the deferred close: no check-extension,
mmap-size, supported-CPUID, MSR or create-VM call. -/
theorem NewVm_version_mismatch (env : Env) (fuel : Nat) (tr : List Event) (fd : Int)
    (version : Nat) (e : Errno)
    (hopen : env.sysOpen tr = (fd, none))
    (hver : env.getApiVersion (tr ++ [Event.sysOpen fd none]) fd = (version, e))
    (hne : version ≠ 12) :
    NewVm env fuel tr
      = some ((none, some (Err.errno e)),
          tr ++ [Event.sysOpen fd none, Event.getApiVersion fd version e, Event.close fd]) := by
  unfold NewVm
  simp only [hopen]
  unfold NewVm.negotiate
  simp only [hver, ne_eq, hne, not_false_eq_true, true_or, if_true, List.append_assoc,
    List.singleton_append]
  rfl

theorem NewVm_version_mismatch_witness :
    NewVm Sim.version11.env 5 []
        = some ((none, some (Err.errno 0)),
            [] ++ [Event.sysOpen 3 none, Event.getApiVersion 3 11 0, Event.close 3])
      ∧ NewVm Sim.versionFails.env 5 []
        = some ((none, some (Err.errno 25)),
            [] ++ [Event.sysOpen 3 none, Event.getApiVersion 3 0xffffffffffffffff 25,
              Event.close 3]) :=
  ⟨NewVm_version_mismatch Sim.version11.env 5 [] 3 11 0 rfl rfl (by decide),
    NewVm_version_mismatch Sim.versionFails.env 5 [] 3 0xffffffffffffffff 25 rfl rfl
      (by decide)⟩

/-- C5, counterexample: the error `NewVm` returns on a version mismatch does not say
that the version is incompatible.  On a device answering version 11 with errno 0
it is `Errno(0)`, the errno of a call that reported no error; on a device whose
version call fails with errno 25 it is `Errno(25)`, the very error `NewVm` returns
on a device of version 12 whose mmap-size call fails with errno 25. -/
theorem NewVm_version_error_is_bare_errno :
    (NewVm Sim.version11.env 5 []).map Prod.fst = some (none, some (Err.errno 0))
      ∧ (NewVm Sim.versionFails.env 5 []).map Prod.fst = some (none, some (Err.errno 25))
      ∧ (NewVm Sim.mmapFails.env 5 []).map Prod.fst = some (none, some (Err.errno 25))
      ∧ Sim.mmapFails.version = (12, 0)
      ∧ (NewVm Sim.versionFails.env 5 []).map (fun r => r.1.2)
        = (NewVm Sim.mmapFails.env 5 []).map (fun r => r.1.2) := by
  decide

/-- C10: when `NewVm` returns a Vm, it returns it with a nil error; the Vm has no
vcpus, `next_id = 0`, `mem_region = 0`; its `fd` is the create-VM call's result
(converted with `int(...)`, which is the value itself below 2^63); its `cpuid` is
the table `defaultCpuid` returned; its `msrs` is the list `availableMsrs` returned;
its `mmap_size` is the mmap-size call's result (converted with `int(...)`). -/
theorem NewVm_result (env : Env) (fuel : Nat) (tr tr' : List Event) (vm : Vm)
    (err : GoError) (h : NewVm env fuel tr = some ((some vm, err), tr')) :
    err = none
      ∧ vm.vcpus = [] ∧ vm.Vcpus.length = 0 ∧ vm.next_id = 0 ∧ vm.mem_region = 0
      ∧ ∃ (fd : Int) (t0 t2 : List Event) (r vmfd : Nat),
          env.getVcpuMmapSize t0 fd = (r, 0)
          ∧ vm.mmap_size = intOfUintptr r
          ∧ defaultCpuid env fuel fd (t0 ++ [Event.getVcpuMmapSize fd r 0])
              = some ((vm.cpuid, none), t2)
          ∧ env.availableMsrs t2 fd = (vm.msrs, none)
          ∧ env.createVm (t2 ++ [Event.availableMsrs fd vm.msrs none]) fd = (vmfd, 0)
          ∧ vm.fd = intOfUintptr vmfd
          ∧ (vmfd < 2 ^ 63 → vm.fd = (vmfd : Int))
          ∧ tr' = t2 ++ [Event.availableMsrs fd vm.msrs none, Event.createVm fd vmfd 0,
              Event.closeOnExec vm.fd, Event.logPrint, Event.close fd] := by
  unfold NewVm at h
  simp only at h
  split at h
  · simp at h
  · rename_i hopen
    split at h
    · simp at h
    · rename_i res trn hneg
      simp only [Option.some.injEq, Prod.mk.injEq] at h
      obtain ⟨hres, htr⟩ := h
      subst hres
      unfold NewVm.negotiate at hneg
      simp only at hneg
      split_ifs at hneg with hv
      · simp at hneg
      · split at hneg
        · simp at hneg
        · rename_i trc hcaps
          split at hneg
          · simp at hneg
          · rename_i mmap_size trm hmm
            split at hneg
            · simp at hneg
            · simp at hneg
            · rename_i cpuid trd hdef
              split at hneg
              · simp at hneg
              · rename_i hmsrs
                simp only [Option.some.injEq] at hneg
                unfold NewVm.create at hneg
                simp only at hneg
                split_ifs at hneg with hc
                · simp at hneg
                · simp only [Prod.mk.injEq, Option.some.injEq, and_true] at hneg
                  obtain ⟨⟨hvm, herr⟩, htrn⟩ := hneg
                  unfold getMmapSize at hmm
                  simp only at hmm
                  split_ifs at hmm with hm0
                  · simp at hmm
                  · simp only [Prod.mk.injEq, and_true] at hmm
                    obtain ⟨hsz, htrm⟩ := hmm
                    subst hvm
                    subst herr
                    refine ⟨rfl, rfl, rfl, rfl, rfl, (env.sysOpen tr).1, trc, trd,
                      (env.getVcpuMmapSize trc (env.sysOpen tr).1).1,
                      (env.createVm (trd ++ [Event.availableMsrs (env.sysOpen tr).1
                        (env.availableMsrs trd (env.sysOpen tr).1).1
                        (env.availableMsrs trd (env.sysOpen tr).1).2]) (env.sysOpen tr).1).1,
                      ?_, ?_, ?_, ?_, ?_, rfl, ?_, ?_⟩
                    · exact Prod.ext rfl (by simpa using hm0)
                    · exact hsz.symm
                    · have hm0' : (env.getVcpuMmapSize trc (env.sysOpen tr).1).2 = 0 := by
                        simpa using hm0
                      rw [← hm0', htrm]
                      exact hdef
                    · exact Prod.ext rfl hmsrs
                    · rw [← hmsrs]
                      exact Prod.ext rfl (by simpa using hc)
                    · intro hlt
                      exact intOfUintptr_of_lt _ hlt
                    · have hc' : (env.createVm (trd ++ [Event.availableMsrs (env.sysOpen tr).1
                          (env.availableMsrs trd (env.sysOpen tr).1).1
                          (env.availableMsrs trd (env.sysOpen tr).1).2]) (env.sysOpen tr).1).2
                          = 0 := by simpa using hc
                      rw [← htr, ← htrn, ← hmsrs, ← hc']
                      simp

theorem pairwise_of_left {α : Type} {R : α → α → Prop} (l : List α)
    (h : ∀ a ∈ l, ∀ b, R a b) : l.Pairwise R := by
  induction l with
  | nil => exact List.Pairwise.nil
  | cons a l ih =>
    exact List.Pairwise.cons (fun b _ => h a (List.mem_cons_self a l) b)
      (ih (fun c hc b => h c (List.mem_cons_of_mem a hc) b))

theorem pairwise_of_mem {α : Type} {R : α → α → Prop} (l : List α)
    (h : ∀ a ∈ l, ∀ b ∈ l, R a b) : l.Pairwise R := by
  induction l with
  | nil => exact List.Pairwise.nil
  | cons a l ih =>
    exact List.Pairwise.cons
      (fun b hb => h a (List.mem_cons_self a l) b (List.mem_cons_of_mem a hb))
      (ih (fun c hc b hb => h c (List.mem_cons_of_mem a hc) b (List.mem_cons_of_mem a hb)))

theorem CleanRun.append {j k : Nat} {l1 l2 : List Event} (h1 : CleanRun j l1) (hjk : j ≤ k)
    (hrank : ∀ ev ∈ l2, ev.rank = k) (hok : ∀ ev ∈ l2, ev.stepError = none) :
    CleanRun k (l1 ++ l2) := by
  obtain ⟨hp, hr, he⟩ := h1
  refine ⟨List.pairwise_append.2 ⟨hp, pairwise_of_mem l2 (fun a ha b hb => ?_),
    fun a ha b hb => ?_⟩, fun ev hev => ?_, fun ev hev => ?_⟩
  · rw [hrank a ha, hrank b hb]
  · rw [hrank b hb]
    exact le_trans (hr a ha) hjk
  · rcases List.mem_append.1 hev with h | h
    · exact le_trans (hr ev h) hjk
    · exact le_of_eq (hrank ev h)
  · rcases List.mem_append.1 hev with h | h
    · exact he ev h
    · exact hok ev h

/-- The events of the capability loop. -/
theorem NewVm.checkExtensions_run (env : Env) (fd : Int) :
    ∀ (caps : List CapabilityRequirement) (tr : List Event),
      ∃ evs, (NewVm.checkExtensions env fd caps tr).2 = tr ++ evs
        ∧ (∀ ev ∈ evs, ev.rank = 2)
        ∧ ((NewVm.checkExtensions env fd caps tr).1 = none →
            (∀ ev ∈ evs, ev.stepError = none) ∧ evs.filterMap Event.capSpec? = caps)
        ∧ (∀ x, (NewVm.checkExtensions env fd caps tr).1 = some x →
            ∃ good last, evs = good ++ [last]
              ∧ (∀ ev ∈ good, ev.stepError = none)
              ∧ last.rank = 2 ∧ last.stepError = some x
              ∧ evs.filterMap Event.capSpec? <+: caps) := by
  intro caps
  induction caps with
  | nil =>
    intro tr
    exact ⟨[], by simp [NewVm.checkExtensions], by simp, by simp [NewVm.checkExtensions],
      by simp [NewVm.checkExtensions]⟩
  | cons c rest ih =>
    intro tr
    cases hc : env.checkCapability tr fd c with
    | some x =>
      have hres : NewVm.checkExtensions env fd (c :: rest) tr
          = (some x, tr ++ [Event.checkCapability fd c (some x)]) := by
        unfold NewVm.checkExtensions
        simp only [hc]
      refine ⟨[Event.checkCapability fd c (some x)], by rw [hres], ?_, ?_, ?_⟩
      · intro ev hev
        rw [List.mem_singleton.1 hev]
        rfl
      · rw [hres]
        intro h
        simp at h
      · rw [hres]
        intro y hy
        simp only [Option.some.injEq] at hy
        subst hy
        refine ⟨[], Event.checkCapability fd c (some x), rfl, by simp, rfl, rfl, ?_⟩
        simp only [List.filterMap_cons, Event.capSpec?, List.filterMap_nil]
        exact List.prefix_iff_eq_take.2 (by simp)
    | none =>
      have hres : NewVm.checkExtensions env fd (c :: rest) tr
          = NewVm.checkExtensions env fd rest (tr ++ [Event.checkCapability fd c none]) := by
        conv_lhs => unfold NewVm.checkExtensions
        simp only [hc]
      obtain ⟨evs, htr, hrank, hnone, hsome⟩ := ih (tr ++ [Event.checkCapability fd c none])
      refine ⟨Event.checkCapability fd c none :: evs, ?_, ?_, ?_, ?_⟩
      · rw [hres, htr]
        simp
      · intro ev hev
        rcases List.mem_cons.1 hev with h | h
        · rw [h]
          rfl
        · exact hrank ev h
      · rw [hres]
        intro h
        obtain ⟨h1, h2⟩ := hnone h
        refine ⟨fun ev hev => ?_, ?_⟩
        · rcases List.mem_cons.1 hev with h | h
          · rw [h]
            rfl
          · exact h1 ev h
        · simp only [List.filterMap_cons, Event.capSpec?, h2]
      · rw [hres]
        intro x hx
        obtain ⟨good, last, hevs, hgood, hlr, hle, hpre⟩ := hsome x hx
        refine ⟨Event.checkCapability fd c none :: good, last, by rw [hevs]; rfl, ?_, hlr, hle, ?_⟩
        · intro ev hev
          rcases List.mem_cons.1 hev with h | h
          · rw [h]
            rfl
          · exact hgood ev h
        · simp only [List.filterMap_cons, Event.capSpec?]
          exact List.cons_prefix_cons.2 ⟨rfl, hpre⟩

/-- The events of the retry loop. -/
theorem supportedCpuid.query_run (env : Env) (fd : Int) :
    ∀ (fuel : Nat) (b : Buf) (tr : List Event) (e : Errno) (b' : Buf) (tr' : List Event),
      supportedCpuid.query env fd fuel b tr = some (e, b', tr') →
      ∃ good bx, tr' = tr ++ (good ++ [Event.getSupportedCpuid fd bx b' e])
        ∧ (∀ ev ∈ good, ev.rank = 4 ∧ ev.stepError = none ∧ ev.capSpec? = none)
        ∧ e ≠ ENOMEM := by
  intro fuel
  induction fuel with
  | zero =>
    intro b tr e b' tr' h
    simp [supportedCpuid.query] at h
  | succ f ih =>
    intro b tr e b' tr' h
    unfold supportedCpuid.query at h
    simp only at h
    split_ifs at h with hm
    · obtain ⟨good, bx, htr, hgood, hne⟩ := ih _ _ _ _ _ h
      refine ⟨Event.getSupportedCpuid fd b (env.getSupportedCpuid tr fd b).1
        (env.getSupportedCpuid tr fd b).2 :: good, bx, ?_, ?_, hne⟩
      · rw [htr]
        simp
      · intro ev hev
        rcases List.mem_cons.1 hev with h | h
        · rw [h, hm]
          exact ⟨rfl, by simp [Event.stepError], rfl⟩
        · exact hgood ev h
    · simp only [Option.some.injEq, Prod.mk.injEq] at h
      obtain ⟨h1, h2, h3⟩ := h
      refine ⟨[], b, ?_, by simp, ?_⟩
      · rw [← h3, ← h2, ← h1]
        rfl
      · rw [← h1]
        exact hm

/-- The events of `defaultCpuid`. -/
theorem defaultCpuid_run (env : Env) (fuel : Nat) (fd : Int) (tr tr' : List Event)
    (cpuids : List Cpuid) (err : GoError)
    (h : defaultCpuid env fuel fd tr = some ((cpuids, err), tr')) :
    ∃ good bx b' e, tr' = tr ++ (good ++ [Event.getSupportedCpuid fd bx b' e])
      ∧ (∀ ev ∈ good, ev.rank = 4 ∧ ev.stepError = none ∧ ev.capSpec? = none)
      ∧ e ≠ ENOMEM
      ∧ (err = none → e = 0)
      ∧ (∀ x, err = some x → e ≠ 0 ∧ x = Err.errno e) := by
  unfold defaultCpuid at h
  rw [supportedCpuid_unfold] at h
  cases hq : supportedCpuid.query env fd fuel (supportedCpuid.buffer env) tr with
  | none =>
    rw [hq] at h
    simp at h
  | some r =>
    obtain ⟨e, b', trq⟩ := r
    obtain ⟨good, bx, htr, hgood, hne⟩ := supportedCpuid.query_run env fd _ _ _ _ _ _ hq
    rw [hq] at h
    simp only at h
    by_cases he : e = 0
    · simp only [he, ne_eq, not_true_eq_false, if_false] at h
      cases hx : supportedCpuid.extract env b' fuel 0 [] with
      | none =>
        rw [hx] at h
        simp at h
      | some cs =>
        rw [hx] at h
        simp only [Option.some.injEq, Prod.mk.injEq] at h
        obtain ⟨⟨-, herr⟩, htr'⟩ := h
        refine ⟨good, bx, b', e, by rw [← htr', htr], hgood, hne, fun _ => he, ?_⟩
        intro x hx
        rw [← herr] at hx
        simp at hx
    · simp only [ne_eq, he, not_false_eq_true, if_true, Option.some.injEq,
        Prod.mk.injEq] at h
      obtain ⟨⟨-, herr⟩, htr'⟩ := h
      refine ⟨good, bx, b', e, by rw [← htr', htr], hgood, hne, ?_, ?_⟩
      · intro hn
        rw [← herr] at hn
        simp at hn
      · intro x hx
        rw [← herr] at hx
        simp only [Option.some.injEq] at hx
        exact ⟨he, hx.symm⟩

theorem NewVm.post_of_failure (env : Env) (good : List Event) (last : Event) (x : Err)
    (fd : Int) (k : Nat) (hgood : CleanRun k good) (hk : k ≤ last.rank)
    (hstep : last.rank ≤ 6) (hx : last.stepError = some x)
    (hcaps : (good ++ [last]).filterMap Event.capSpec? <+: env.requiredCapabilities) :
    NewVm.Post env none (some x) (good ++ [last, Event.close fd]) := by
  obtain ⟨hp, hr, he⟩ := hgood
  have hclose : ¬ (Event.close fd).isStep := by
    simp [Event.isStep, Event.rank]
  refine ⟨?_, ?_, ?_, ?_, ?_, ?_⟩
  · refine List.pairwise_append.2 ⟨hp, ?_, ?_⟩
    · simp only [List.pairwise_cons, List.mem_singleton, forall_eq, List.not_mem_nil,
        false_implies, implies_true, List.Pairwise.nil, and_true]
      exact le_trans hstep (by simp [Event.rank])
    · intro a ha b hb
      have hb6 : k ≤ b.rank := by
        simp only [List.mem_cons, List.mem_singleton, List.not_mem_nil, or_false] at hb
        rcases hb with h | h
        · rw [h]
          exact hk
        · rw [h]
          exact le_trans hk (le_trans hstep (by simp [Event.rank]))
      exact le_trans (hr a ha) hb6
  · have hsplit : good ++ [last, Event.close fd] = (good ++ [last]) ++ [Event.close fd] := by
      simp
    rw [hsplit, List.filterMap_append]
    simpa [Event.capSpec?] using hcaps
  · refine List.pairwise_append.2 ⟨pairwise_of_left good (fun a ha b h => ?_), ?_, ?_⟩
    · exact absurd (he a ha) h
    · simp only [List.pairwise_cons, List.mem_singleton, forall_eq, List.not_mem_nil,
        false_implies, implies_true, List.Pairwise.nil, and_true]
      exact fun _ => hclose
    · intro a ha b _ h
      exact absurd (he a ha) h
  · intro ev hev y hy
    rcases List.mem_append.1 hev with h | h
    · rw [he ev h] at hy
      simp at hy
    · simp only [List.mem_cons, List.mem_singleton, List.not_mem_nil, or_false] at h
      rcases h with h | h
      · rw [h, hx] at hy
        exact ⟨rfl, hy⟩
      · rw [h] at hy
        simp [Event.stepError] at hy
  · intro _
    simp
  · intro h
    exact absurd rfl h

theorem NewVm.post_of_success (env : Env) (good : List Event) (vm : Vm) (fd fd' : Int)
    (vmfd : Nat) (hgood : CleanRun 5 good)
    (hcaps : good.filterMap Event.capSpec? = env.requiredCapabilities)
    (h3 : ∃ fd r, Event.getVcpuMmapSize fd r 0 ∈ good)
    (h4 : ∃ fd b b', Event.getSupportedCpuid fd b b' 0 ∈ good)
    (h5 : ∃ fd msrs, Event.availableMsrs fd msrs none ∈ good) :
    NewVm.Post env (some vm) none
      (good ++ [Event.createVm fd vmfd 0, Event.closeOnExec fd', Event.logPrint,
        Event.close fd]) := by
  obtain ⟨hp, hr, he⟩ := hgood
  have htail : ∀ ev ∈ [Event.createVm fd vmfd 0, Event.closeOnExec fd', Event.logPrint,
      Event.close fd], ev.stepError = none ∧ 6 ≤ ev.rank ∧ ev.capSpec? = none := by
    intro ev hev
    simp only [List.mem_cons, List.mem_singleton, List.not_mem_nil, or_false] at hev
    rcases hev with h | h | h | h <;> rw [h] <;>
      simp [Event.stepError, Event.rank, Event.capSpec?]
  have hall : ∀ ev ∈ good ++ [Event.createVm fd vmfd 0, Event.closeOnExec fd',
      Event.logPrint, Event.close fd], ev.stepError = none := by
    intro ev hev
    rcases List.mem_append.1 hev with h | h
    · exact he ev h
    · exact (htail ev h).1
  have hfm : (good ++ [Event.createVm fd vmfd 0, Event.closeOnExec fd', Event.logPrint,
      Event.close fd]).filterMap Event.capSpec? = env.requiredCapabilities := by
    rw [List.filterMap_append, hcaps]
    simp [Event.capSpec?]
  refine ⟨?_, ?_, ?_, ?_, ?_, ?_⟩
  · refine List.pairwise_append.2 ⟨hp, ?_, ?_⟩
    · simp [Event.rank]
    · intro a ha b hb
      exact le_trans (hr a ha) (le_trans (by decide) (htail b hb).2.1)
  · rw [hfm]
  · exact pairwise_of_left _ (fun a ha b h => absurd (hall a ha) h)
  · intro ev hev y hy
    rw [hall ev hev] at hy
    simp at hy
  · intro h
    simp at h
  · intro _
    refine ⟨rfl, hall, hfm, ?_, ?_, ?_, ?_⟩
    · obtain ⟨a, r, h⟩ := h3
      exact ⟨a, r, List.mem_append_left _ h⟩
    · obtain ⟨a, b, b', h⟩ := h4
      exact ⟨a, b, b', List.mem_append_left _ h⟩
    · obtain ⟨a, m, h⟩ := h5
      exact ⟨a, m, List.mem_append_left _ h⟩
    · exact ⟨fd, vmfd, List.mem_append_right _ (List.mem_cons_self _ _)⟩

theorem filterMap_capSpec_nil (l : List Event) (h : ∀ ev ∈ l, ev.capSpec? = none) :
    l.filterMap Event.capSpec? = [] := by
  induction l with
  | nil => rfl
  | cons a l ih =>
    rw [List.filterMap_cons, h a (List.mem_cons_self a l)]
    exact ih (fun ev hev => h ev (List.mem_cons_of_mem a hev))

theorem NewVm.post_of_early (env : Env) (evs : List Event) (x : Err)
    (hp : evs.Pairwise (fun a b => a.rank ≤ b.rank))
    (hnone : ∀ ev ∈ evs, ev.stepError = none ∧ ev.capSpec? = none) :
    NewVm.Post env none (some x) evs := by
  refine ⟨hp, ?_, ?_, ?_, ?_, ?_⟩
  · rw [filterMap_capSpec_nil evs (fun ev hev => (hnone ev hev).2)]
    exact List.nil_prefix
  · exact pairwise_of_left _ (fun a ha b h => absurd (hnone a ha).1 h)
  · intro ev hev y hy
    rw [(hnone ev hev).1] at hy
    simp at hy
  · intro _
    simp
  · intro h
    exact absurd rfl h

theorem CleanRun.start (fd : Int) (o : GoError) (v : Nat) (e : Errno) :
    CleanRun 1 [Event.sysOpen fd o, Event.getApiVersion fd v e] := by
  refine ⟨by simp [Event.rank], ?_, ?_⟩
  · intro ev hev
    simp only [List.mem_cons, List.mem_singleton, List.not_mem_nil, or_false] at hev
    rcases hev with h | h <;> rw [h] <;> simp [Event.rank]
  · intro ev hev
    simp only [List.mem_cons, List.mem_singleton, List.not_mem_nil, or_false] at hev
    rcases hev with h | h <;> rw [h] <;> rfl

theorem NewVm.checkExtensions_run' (env : Env) (fd : Int)
    (caps : List CapabilityRequirement) (tr trc : List Event) (r : GoError)
    (h : NewVm.checkExtensions env fd caps tr = (r, trc)) :
    ∃ evs, trc = tr ++ evs
      ∧ (∀ ev ∈ evs, ev.rank = 2)
      ∧ (r = none → (∀ ev ∈ evs, ev.stepError = none) ∧ evs.filterMap Event.capSpec? = caps)
      ∧ (∀ x, r = some x →
          ∃ good last, evs = good ++ [last]
            ∧ (∀ ev ∈ good, ev.stepError = none)
            ∧ last.rank = 2 ∧ last.stepError = some x
            ∧ evs.filterMap Event.capSpec? <+: caps) := by
  have := NewVm.checkExtensions_run env fd caps tr
  rw [h] at this
  exact this

theorem getMmapSize_run (env : Env) (fd : Int) (tr tr' : List Event) (sz : Int)
    (err : GoError) (h : getMmapSize env fd tr = ((sz, err), tr')) :
    ∃ r e, tr' = tr ++ [Event.getVcpuMmapSize fd r e]
      ∧ (err = none → e = 0)
      ∧ (∀ x, err = some x → (Event.getVcpuMmapSize fd r e).stepError = some x) := by
  unfold getMmapSize at h
  simp only at h
  refine ⟨(env.getVcpuMmapSize tr fd).1, (env.getVcpuMmapSize tr fd).2, ?_⟩
  split_ifs at h with he
  · simp only [Prod.mk.injEq] at h
    obtain ⟨⟨-, h2⟩, h3⟩ := h
    refine ⟨h3.symm, ?_, ?_⟩
    · intro hn
      rw [hn] at h2
      simp at h2
    · intro x hx
      rw [hx] at h2
      simp only [Event.stepError]
      rw [if_pos he]
      exact h2
  · simp only [Prod.mk.injEq] at h
    obtain ⟨⟨-, h2⟩, h3⟩ := h
    refine ⟨h3.symm, fun _ => by simpa using he, ?_⟩
    intro x hx
    rw [hx] at h2
    simp at h2

theorem NewVm_post (env : Env) (fuel : Nat) (tr tr' : List Event) (ovm : Option Vm)
    (err : GoError) (h : NewVm env fuel tr = some ((ovm, err), tr')) :
    ∃ evs, tr' = tr ++ evs ∧ NewVm.Post env ovm err evs := by
  unfold NewVm at h
  simp only at h
  generalize env.sysOpen tr = so at h
  obtain ⟨fd, o⟩ := so
  cases o with
  | some x =>
    simp only [Option.some.injEq, Prod.mk.injEq] at h
    obtain ⟨⟨h1, h2⟩, h3⟩ := h
    subst h1 h2 h3
    refine ⟨_, rfl, NewVm.post_of_early env _ x (List.pairwise_singleton _ _) ?_⟩
    intro ev hev
    rw [List.mem_singleton.1 hev]
    exact ⟨rfl, rfl⟩
  | none =>
    simp only at h
    split at h
    · simp at h
    · rename_i res trn hneg
      simp only [Option.some.injEq, Prod.mk.injEq] at h
      obtain ⟨hres, htr⟩ := h
      subst hres htr
      unfold NewVm.negotiate at hneg
      simp only at hneg
      generalize env.getApiVersion (tr ++ [Event.sysOpen fd none]) fd = v at hneg
      obtain ⟨ver, e⟩ := v
      simp only at hneg
      have hstart := CleanRun.start fd none ver e
      have hstartcaps : ∀ ev ∈ [Event.sysOpen fd none, Event.getApiVersion fd ver e],
          ev.capSpec? = none := by
        intro ev hev
        simp only [List.mem_cons, List.mem_singleton, List.not_mem_nil, or_false] at hev
        rcases hev with h | h <;> rw [h] <;> rfl
      split_ifs at hneg with hv
      · simp only [Option.some.injEq, Prod.mk.injEq] at hneg
        obtain ⟨⟨h1, h2⟩, h3⟩ := hneg
        subst h1 h2 h3
        refine ⟨[Event.sysOpen fd none, Event.getApiVersion fd ver e, Event.close fd],
          by simp, NewVm.post_of_early env _ _ (by simp [Event.rank]) ?_⟩
        intro ev hev
        simp only [List.mem_cons, List.mem_singleton, List.not_mem_nil, or_false] at hev
        rcases hev with h | h | h <;> rw [h] <;> exact ⟨rfl, rfl⟩
      · split at hneg
        · rename_i x trc hcaps
          simp only [Option.some.injEq, Prod.mk.injEq] at hneg
          obtain ⟨⟨h1, h2⟩, h3⟩ := hneg
          subst h1 h2 h3
          obtain ⟨cevs, hctr, hcrank, -, hcsome⟩ := NewVm.checkExtensions_run' _ _ _ _ _ _ hcaps
          obtain ⟨cgood, last, hcevs, hcg, hlr, hle, hpre⟩ := hcsome x rfl
          have hg : CleanRun 2 ([Event.sysOpen fd none, Event.getApiVersion fd ver e] ++ cgood) :=
            CleanRun.append hstart (by decide)
              (fun ev hev => hcrank ev (by rw [hcevs]; exact List.mem_append_left _ hev)) hcg
          refine ⟨[Event.sysOpen fd none, Event.getApiVersion fd ver e] ++ cgood
              ++ [last, Event.close fd], ?_,
            NewVm.post_of_failure env _ last x _ 2 hg (le_of_eq hlr.symm)
              (by rw [hlr]; decide) hle ?_⟩
          · rw [hctr, hcevs]
            simp
          · rw [List.append_assoc, List.filterMap_append,
              filterMap_capSpec_nil _ hstartcaps, List.nil_append, ← hcevs]
            exact hpre
        · rename_i trc hcaps
          obtain ⟨cevs, hctr, hcrank, hcnone, -⟩ := NewVm.checkExtensions_run' _ _ _ _ _ _ hcaps
          obtain ⟨hcok, hccaps⟩ := hcnone rfl
          have hg2 : CleanRun 2 ([Event.sysOpen fd none, Event.getApiVersion fd ver e] ++ cevs) :=
            CleanRun.append hstart (by decide) hcrank hcok
          have hcaps2 : ([Event.sysOpen fd none, Event.getApiVersion fd ver e]
              ++ cevs).filterMap Event.capSpec? = env.requiredCapabilities := by
            rw [List.filterMap_append, filterMap_capSpec_nil _ hstartcaps, List.nil_append,
              hccaps]
          split at hneg
          · rename_i x trm hmm
            simp only [Option.some.injEq, Prod.mk.injEq] at hneg
            obtain ⟨⟨h1, h2⟩, h3⟩ := hneg
            subst h1 h2 h3
            obtain ⟨r, em, hmtr, -, hmsome⟩ := getMmapSize_run _ _ _ _ _ _ hmm
            refine ⟨[Event.sysOpen fd none, Event.getApiVersion fd ver e] ++ cevs
                ++ [Event.getVcpuMmapSize fd r em, Event.close fd], ?_,
              NewVm.post_of_failure env _ _ x _ 2 hg2 (by simp [Event.rank])
                (by simp [Event.rank]) (hmsome x rfl) ?_⟩
            · rw [hmtr, hctr]
              simp
            · rw [List.filterMap_append, hcaps2]
              simp [Event.capSpec?]
          · rename_i mmap_size trm hmm
            obtain ⟨r, em, hmtr, hmnone, -⟩ := getMmapSize_run _ _ _ _ _ _ hmm
            have hem : em = 0 := hmnone rfl
            subst hem
            have hg3 : CleanRun 3 ([Event.sysOpen fd none, Event.getApiVersion fd ver e]
                ++ cevs ++ [Event.getVcpuMmapSize fd r 0]) :=
              CleanRun.append hg2 (by decide)
                (fun ev hev => by rw [List.mem_singleton.1 hev]; rfl)
                (fun ev hev => by rw [List.mem_singleton.1 hev]; rfl)
            have hcaps3 : ([Event.sysOpen fd none, Event.getApiVersion fd ver e]
                ++ cevs ++ [Event.getVcpuMmapSize fd r 0]).filterMap Event.capSpec?
                = env.requiredCapabilities := by
              rw [List.filterMap_append, hcaps2]
              simp [Event.capSpec?]
            split at hneg
            · simp at hneg
            · rename_i x trd hdef
              simp only [Option.some.injEq, Prod.mk.injEq] at hneg
              obtain ⟨⟨h1, h2⟩, h3⟩ := hneg
              subst h1 h2 h3
              obtain ⟨qgood, bx, b', eq, hdtr, hqg, hqne, -, hqsome⟩ :=
                defaultCpuid_run _ _ _ _ _ _ _ hdef
              obtain ⟨hq0, hqx⟩ := hqsome x rfl
              have hg : CleanRun 4 ([Event.sysOpen fd none, Event.getApiVersion fd ver e]
                  ++ cevs ++ [Event.getVcpuMmapSize fd r 0] ++ qgood) :=
                CleanRun.append hg3 (by decide) (fun ev hev => (hqg ev hev).1)
                  (fun ev hev => (hqg ev hev).2.1)
              refine ⟨[Event.sysOpen fd none, Event.getApiVersion fd ver e] ++ cevs
                  ++ [Event.getVcpuMmapSize fd r 0] ++ qgood
                  ++ [Event.getSupportedCpuid fd bx b' eq, Event.close fd], ?_,
                NewVm.post_of_failure env _ _ x _ 4 hg (by simp [Event.rank])
                  (by simp [Event.rank]) ?_ ?_⟩
              · rw [hdtr, hmtr, hctr]
                simp
              · simp only [Event.stepError]
                rw [if_pos ⟨hq0, hqne⟩, hqx]
              · rw [List.filterMap_append, List.filterMap_append, hcaps3,
                  filterMap_capSpec_nil _ (fun ev hev => (hqg ev hev).2.2)]
                simp [Event.capSpec?]
            · rename_i cpuid trd hdef
              obtain ⟨qgood, bx, b', eq, hdtr, hqg, hqne, hqnone, -⟩ :=
                defaultCpuid_run _ _ _ _ _ _ _ hdef
              have heq : eq = 0 := hqnone rfl
              subst heq
              have hg4 : CleanRun 4 ([Event.sysOpen fd none, Event.getApiVersion fd ver e]
                  ++ cevs ++ [Event.getVcpuMmapSize fd r 0]
                  ++ (qgood ++ [Event.getSupportedCpuid fd bx b' 0])) := by
                refine CleanRun.append hg3 (by decide) (fun ev hev => ?_) (fun ev hev => ?_)
                · rcases List.mem_append.1 hev with h | h
                  · exact (hqg ev h).1
                  · rw [List.mem_singleton.1 h]
                    rfl
                · rcases List.mem_append.1 hev with h | h
                  · exact (hqg ev h).2.1
                  · rw [List.mem_singleton.1 h]
                    simp [Event.stepError]
              have hcaps4 : ([Event.sysOpen fd none, Event.getApiVersion fd ver e]
                  ++ cevs ++ [Event.getVcpuMmapSize fd r 0]
                  ++ (qgood ++ [Event.getSupportedCpuid fd bx b' 0])).filterMap Event.capSpec?
                  = env.requiredCapabilities := by
                rw [List.filterMap_append, hcaps3, List.filterMap_append,
                  filterMap_capSpec_nil _ (fun ev hev => (hqg ev hev).2.2)]
                simp [Event.capSpec?]
              generalize env.availableMsrs trd fd = m at hneg
              obtain ⟨msrs, merr⟩ := m
              cases merr with
              | some x =>
                simp only [Option.some.injEq, Prod.mk.injEq] at hneg
                obtain ⟨⟨h1, h2⟩, h3⟩ := hneg
                subst h1 h2 h3
                refine ⟨[Event.sysOpen fd none, Event.getApiVersion fd ver e] ++ cevs
                    ++ [Event.getVcpuMmapSize fd r 0]
                    ++ (qgood ++ [Event.getSupportedCpuid fd bx b' 0])
                    ++ [Event.availableMsrs fd msrs (some x), Event.close fd], ?_,
                  NewVm.post_of_failure env _ _ x _ 4 hg4 (by simp [Event.rank])
                    (by simp [Event.rank]) rfl ?_⟩
                · rw [hdtr, hmtr, hctr]
                  simp
                · rw [List.filterMap_append, hcaps4]
                  simp [Event.capSpec?]
              | none =>
                simp only [Option.some.injEq] at hneg
                have hg5 : CleanRun 5 ([Event.sysOpen fd none, Event.getApiVersion fd ver e]
                    ++ cevs ++ [Event.getVcpuMmapSize fd r 0]
                    ++ (qgood ++ [Event.getSupportedCpuid fd bx b' 0])
                    ++ [Event.availableMsrs fd msrs none]) :=
                  CleanRun.append hg4 (by decide)
                    (fun ev hev => by rw [List.mem_singleton.1 hev]; rfl)
                    (fun ev hev => by rw [List.mem_singleton.1 hev]; rfl)
                have hcaps5 : ([Event.sysOpen fd none, Event.getApiVersion fd ver e]
                    ++ cevs ++ [Event.getVcpuMmapSize fd r 0]
                    ++ (qgood ++ [Event.getSupportedCpuid fd bx b' 0])
                    ++ [Event.availableMsrs fd msrs none]).filterMap Event.capSpec?
                    = env.requiredCapabilities := by
                  rw [List.filterMap_append, hcaps4]
                  simp [Event.capSpec?]
                unfold NewVm.create at hneg
                simp only at hneg
                generalize env.createVm (trd ++ [Event.availableMsrs fd msrs none]) fd = c
                  at hneg
                obtain ⟨vmfd, ec⟩ := c
                simp only at hneg
                split_ifs at hneg with hec
                · simp only [Prod.mk.injEq] at hneg
                  obtain ⟨⟨h1, h2⟩, h3⟩ := hneg
                  subst h1 h2 h3
                  refine ⟨[Event.sysOpen fd none, Event.getApiVersion fd ver e] ++ cevs
                      ++ [Event.getVcpuMmapSize fd r 0]
                      ++ (qgood ++ [Event.getSupportedCpuid fd bx b' 0])
                      ++ [Event.availableMsrs fd msrs none]
                      ++ [Event.createVm fd vmfd ec, Event.close fd], ?_,
                    NewVm.post_of_failure env _ _ (Err.errno ec) _ 5 hg5
                      (by simp [Event.rank]) (by simp [Event.rank]) ?_ ?_⟩
                  · rw [hdtr, hmtr, hctr]
                    simp
                  · simp only [Event.stepError]
                    rw [if_pos hec]
                  · rw [List.filterMap_append, hcaps5]
                    simp [Event.capSpec?]
                · have hec0 : ec = 0 := by simpa using hec
                  subst hec0
                  simp only [Prod.mk.injEq] at hneg
                  obtain ⟨⟨h1, h2⟩, h3⟩ := hneg
                  subst h1 h2 h3
                  refine ⟨[Event.sysOpen fd none, Event.getApiVersion fd ver e] ++ cevs
                      ++ [Event.getVcpuMmapSize fd r 0]
                      ++ (qgood ++ [Event.getSupportedCpuid fd bx b' 0])
                      ++ [Event.availableMsrs fd msrs none]
                      ++ [Event.createVm fd vmfd 0, Event.closeOnExec (intOfUintptr vmfd),
                        Event.logPrint, Event.close fd], ?_,
                    NewVm.post_of_success env _ _ fd _ vmfd hg5 hcaps5 ?_ ?_ ?_⟩
                  · rw [hdtr, hmtr, hctr]
                    simp
                  · exact ⟨fd, r, by simp⟩
                  · exact ⟨fd, bx, b', by simp⟩
                  · exact ⟨fd, msrs, by simp⟩

/-- `NewVm` fails to return only when `defaultCpuid` does. -/
theorem NewVm_none (env : Env) (fuel : Nat) (tr : List Event)
    (h : NewVm env fuel tr = none) : ∃ fd t, defaultCpuid env fuel fd t = none := by
  unfold NewVm at h
  simp only at h
  split at h
  · simp at h
  · split at h
    · rename_i hneg
      unfold NewVm.negotiate at hneg
      simp only at hneg
      split_ifs at hneg
      split at hneg
      · simp at hneg
      · split at hneg
        · simp at hneg
        · split at hneg
          · rename_i hdef
            exact ⟨_, _, hdef⟩
          · simp at hneg
          · split at hneg
            · simp at hneg
            · simp at hneg
    · simp at h

/-- C7: `NewVm` can fail to return only inside `defaultCpuid` (the unbounded retry
and extraction loops).  When it returns `(ovm, err)` after the calls `evs`:
the calls are in the order open, version, capability checks, mmap size,
supported-CPUID calls, `availableMsrs`, create VM, and the capabilities checked are
an initial part of `requiredCapabilities`, in list order; a call that makes its
step fail is followed by no call of any step (so by no create-VM call), and its
error is the one returned, with a nil Vm; a nil Vm comes with a non-nil error; and
a Vm is returned only with a nil error, after every capability was checked and the
mmap-size, supported-CPUID, `availableMsrs` and create-VM calls were made, none of
them failing. -/
theorem NewVm_fail_fast (env : Env) (fuel : Nat) (tr : List Event) :
    (NewVm env fuel tr = none → ∃ fd t, defaultCpuid env fuel fd t = none)
      ∧ ∀ (ovm : Option Vm) (err : GoError) (tr' : List Event),
          NewVm env fuel tr = some ((ovm, err), tr') →
          ∃ evs, tr' = tr ++ evs
            ∧ evs.Pairwise (fun a b => a.rank ≤ b.rank)
            ∧ evs.filterMap Event.capSpec? <+: env.requiredCapabilities
            ∧ evs.Pairwise (fun a b => a.stepError ≠ none → ¬ b.isStep)
            ∧ (∀ ev ∈ evs, ∀ x, ev.stepError = some x → ovm = none ∧ err = some x)
            ∧ (ovm = none → err ≠ none)
            ∧ (ovm ≠ none →
                err = none
                ∧ (∀ ev ∈ evs, ev.stepError = none)
                ∧ evs.filterMap Event.capSpec? = env.requiredCapabilities
                ∧ (∃ fd r, Event.getVcpuMmapSize fd r 0 ∈ evs)
                ∧ (∃ fd b b', Event.getSupportedCpuid fd b b' 0 ∈ evs)
                ∧ (∃ fd msrs, Event.availableMsrs fd msrs none ∈ evs)
                ∧ (∃ fd vmfd, Event.createVm fd vmfd 0 ∈ evs)) :=
  ⟨NewVm_none env fuel tr, fun ovm err tr' h => NewVm_post env fuel tr tr' ovm err h⟩

theorem NewVm_fail_fast_witness :
    NewVm Sim.capMissing.env 5 []
        = some ((none, some (Err.other 10)),
            [Event.sysOpen 3 none, Event.getApiVersion 3 12 0,
              Event.checkCapability 3 ⟨0, none⟩ none,
              Event.checkCapability 3 ⟨10, some 1⟩ (some (Err.other 10)), Event.close 3])
      ∧ ∃ evs, [Event.sysOpen 3 none, Event.getApiVersion 3 12 0,
              Event.checkCapability 3 ⟨0, none⟩ none,
              Event.checkCapability 3 ⟨10, some 1⟩ (some (Err.other 10)), Event.close 3]
            = [] ++ evs
          ∧ evs.Pairwise (fun a b => a.stepError ≠ none → ¬ b.isStep)
          ∧ ∀ ev ∈ evs, ∀ x, ev.stepError = some x →
              (none : Option Vm) = none ∧ some (Err.other 10) = some x :=
  have h : NewVm Sim.capMissing.env 5 []
      = some ((none, some (Err.other 10)),
          [Event.sysOpen 3 none, Event.getApiVersion 3 12 0,
            Event.checkCapability 3 ⟨0, none⟩ none,
            Event.checkCapability 3 ⟨10, some 1⟩ (some (Err.other 10)), Event.close 3]) := by
    decide
  have p := (NewVm_fail_fast Sim.capMissing.env 5 []).2 _ _ _ h
  ⟨h, p.elim (fun evs q => ⟨evs, q.1, q.2.2.2.1, q.2.2.2.2.1⟩)⟩

theorem NewVm_result_witness :
    NewVm Sim.good.env 5 [] = some ((some Sim.goodVm, none), Sim.goodRun)
      ∧ (none : GoError) = none
      ∧ Sim.goodVm.vcpus = [] ∧ Sim.goodVm.Vcpus.length = 0 ∧ Sim.goodVm.next_id = 0
      ∧ Sim.goodVm.mem_region = 0
      ∧ ∃ (fd : Int) (t0 t2 : List Event) (r vmfd : Nat),
          Sim.good.env.getVcpuMmapSize t0 fd = (r, 0)
          ∧ Sim.goodVm.mmap_size = intOfUintptr r
          ∧ defaultCpuid Sim.good.env 5 fd (t0 ++ [Event.getVcpuMmapSize fd r 0])
              = some ((Sim.goodVm.cpuid, none), t2)
          ∧ Sim.good.env.availableMsrs t2 fd = (Sim.goodVm.msrs, none)
          ∧ Sim.good.env.createVm (t2 ++ [Event.availableMsrs fd Sim.goodVm.msrs none]) fd
              = (vmfd, 0)
          ∧ Sim.goodVm.fd = intOfUintptr vmfd
          ∧ (vmfd < 2 ^ 63 → Sim.goodVm.fd = (vmfd : Int))
          ∧ Sim.goodRun = t2 ++ [Event.availableMsrs fd Sim.goodVm.msrs none,
              Event.createVm fd vmfd 0, Event.closeOnExec Sim.goodVm.fd, Event.logPrint,
              Event.close fd] :=
  have h : NewVm Sim.good.env 5 [] = some ((some Sim.goodVm, none), Sim.goodRun) :=
    eq_some_of_map_fst (by set_option maxRecDepth 100000 in decide)
  ⟨h, NewVm_result Sim.good.env 5 [] Sim.goodRun Sim.goodVm none h⟩

end Novm
